import Mathlib

/-!
Verification of the MDAPackmol topology-reassignment pipeline
(`src/mdapackmol/mdapackmol.py`) against its natural-language specification.

The Python module is shallowly embedded: an MDAnalysis `AtomGroup` template
becomes a `Template` record (per-atom residue membership, per-residue names,
optional per-atom attributes, optional bonded-index lists); the Packmol output
`Universe` becomes a `PUniverse` record; Python exceptions become `Except PyErr`;
the unbounded `while` loop of `reassign_topology` becomes a fuel-indexed
recursion (`loopFuel`), where a `none` result means the fuel ran out before the
loop's guard became false.

Conventions used throughout:
  * bonded index tuples are modelled as `List Nat` so bond pairs and angle
    triples live in one accumulator type, exactly as Python lists of tuples do;
  * `int(...)` is modelled by `pyParseInt` (optional sign then decimal digits);
  * Python list indexing (`structures[t]`, negatives count from the end) is
    modelled by `pyIndex`;
  * numpy fancy assignment `group[a:b].attr = values` (length must match the
    slice, or a length-one array broadcasts) is modelled by `setSliceList`.
-/

namespace MDAPackmol

/-- Python exceptions that the embedded code can raise: `ValueError` (failed
`int(...)` parse, numpy shape mismatch), `IndexError` (list index out of
range), and MDAnalysis `NoDataError` (setting an attribute the universe does
not have).  The source defines no `ReassemblyError` class. -/
inductive PyErr where
  | valueError (msg : String)
  | indexError (msg : String)
  | noDataError (msg : String)
deriving DecidableEq

/-- Model of one template `AtomGroup` (`PackmolStructure.ag`).
`atomRes` gives, for each atom in order, the index of its residue local to the
template; `resnames` gives each residue's name in order.  The four optional
per-atom attributes and four optional bonded-index lists are `some` exactly
when the Python `hasattr` checks succeed; bonded tuples hold 0-based atom
indices local to the template. -/
structure Template where
  atomRes : List Nat
  resnames : List String
  types : Option (List String)
  names : Option (List String)
  charges : Option (List Int)
  masses : Option (List Int)
  bonds : Option (List (Nat × Nat))
  angles : Option (List (Nat × Nat × Nat))
  dihedrals : Option (List (Nat × Nat × Nat × Nat))
  impropers : Option (List (Nat × Nat × Nat × Nat))
deriving DecidableEq, Inhabited

/-- Model of the MDAnalysis `Universe` loaded from Packmol's output.
`resindices` lists, per atom in order, the index of the atom's residue;
`resnames` lists, per residue in order, its residue name (an atom's `resname`
reads through its `resindex`).  The eight optional fields are the topology
attribute containers that `add_TopologyAttr` may add. -/
structure PUniverse where
  resindices : List Nat
  resnames : List String
  types : Option (List String)
  names : Option (List String)
  charges : Option (List Int)
  masses : Option (List Int)
  bonds : Option (List (List Nat))
  angles : Option (List (List Nat))
  dihedrals : Option (List (List Nat))
  impropers : Option (List (List Nat))
deriving DecidableEq

/-- Number of atoms of the packed universe (`len(new.atoms)`). -/
def PUniverse.natoms (u : PUniverse) : Nat := u.resindices.length

/-- The residue name carried by atom `i` (`new.atoms[i].resname`). -/
def PUniverse.atomResname (u : PUniverse) (i : Nat) : String :=
  u.resnames.getD (u.resindices.getD i 0) ""

/-- The per-atom residue-name sequence of a universe. -/
def PUniverse.atomResnames (u : PUniverse) : List String :=
  u.resindices.map (fun ri => u.resnames.getD ri "")

/-- The four bonded-index accumulators of `reassign_topology`
(local variables `bonds`, `angles`, `dihedrals`, `impropers`). -/
structure Acc where
  bonds : List (List Nat)
  angles : List (List Nat)
  dihedrals : List (List Nat)
  impropers : List (List Nat)
deriving DecidableEq

/-- The initial (all-empty) accumulators, lines 115-118 of the source. -/
def Acc.empty : Acc := ⟨[], [], [], []⟩

/-- Numeric value of a digit string (already checked to be all digits). -/
def digitsVal (l : List Char) : Nat :=
  l.foldl (fun acc c => acc * 10 + (c.toNat - 48)) 0

/-- Model of Python `int(s)`: an optional sign followed by at least one
decimal digit; anything else raises `ValueError`. -/
def pyParseInt (s : String) : Except PyErr Int :=
  match s.data with
  | [] => Except.error (PyErr.valueError s)
  | c :: rest =>
    if c = '-' then
      if rest ≠ [] ∧ rest.all (fun x => x.isDigit) then
        Except.ok (-(digitsVal rest : Int))
      else Except.error (PyErr.valueError s)
    else if c = '+' then
      if rest ≠ [] ∧ rest.all (fun x => x.isDigit) then
        Except.ok ((digitsVal rest : Int))
      else Except.error (PyErr.valueError s)
    else
      if (c :: rest).all (fun x => x.isDigit) then
        Except.ok ((digitsVal (c :: rest) : Int))
      else Except.error (PyErr.valueError s)

/-- Model of Python list indexing `xs[i]` on a list of length `n`: indices in
`[-n, n)` are valid, negative ones count from the end; anything else raises
`IndexError`. -/
def pyIndex (n : Nat) (i : Int) : Except PyErr Nat :=
  if 0 ≤ i then
    if i < (n : Int) then Except.ok i.toNat
    else Except.error (PyErr.indexError ("list index out of range"))
  else
    if 0 ≤ (n : Int) + i then Except.ok ((n : Int) + i).toNat
    else Except.error (PyErr.indexError ("list index out of range"))

/-- Length of the Python slice `[lo, hi)` of a sequence of length `len`
(bounds clipped to the sequence). -/
def sliceLen (len lo hi : Nat) : Nat := min hi len - lo

/-- Model of numpy fancy assignment onto the slice `[lo, hi)` of `l` (slice
bounds are clipped to the list, as in Python): the assigned values must match
the slice length, or a length-one value list broadcasts; otherwise a
`ValueError` (shape mismatch) is raised. -/
def setSliceList {α : Type} (l : List α) (lo hi : Nat) (vals : List α) :
    Except PyErr (List α) :=
  if vals.length = sliceLen l.length lo hi then
    Except.ok (l.take lo ++ vals ++ l.drop (lo + sliceLen l.length lo hi))
  else
    match vals with
    | [v] => Except.ok (l.take lo ++ List.replicate (sliceLen l.length lo hi) v
        ++ l.drop (lo + sliceLen l.length lo hi))
    | _ => Except.error (PyErr.valueError ("shape mismatch in assignment"))

/-- One per-atom attribute assignment of the block walk (source line 141-143):
if the template lacks the attribute (`vals = none`) nothing happens; if it has
it but the packed universe has no container for it, MDAnalysis raises
`NoDataError`; otherwise the template's values are written onto the atom slice
`[lo, hi)` of the container. -/
def setOptAttr {α : Type} (container : Option (List α)) (lo hi : Nat)
    (vals : Option (List α)) (attrName : String) : Except PyErr (Option (List α)) :=
  match vals with
  | none => Except.ok container
  | some vs =>
    match container with
    | none => Except.error (PyErr.noDataError attrName)
    | some cur =>
      match setSliceList cur lo hi vs with
      | Except.error e => Except.error e
      | Except.ok cur2 => Except.ok (some cur2)

/-- Lines 130-132 of the source: read the resname of the cursor atom, strip
its first character, parse the remainder with `int`, and index `structures`
with the result.  Returns the cursor atom's residue index, the resolved
template index, and the template itself. -/
def resolveTemplate (S : List Template) (u : PUniverse) (index : Nat) :
    Except PyErr (Nat × Nat × Template) :=
  let ri := u.resindices.getD index 0
  let rn := u.resnames.getD ri ""
  match pyParseInt (rn.drop 1) with
  | Except.error e => Except.error e
  | Except.ok t =>
    match pyIndex S.length t with
    | Except.error e => Except.error e
    | Except.ok ti => Except.ok (ri, ti, S.getD ti default)

/-- Offset a list of bond pairs by the cursor (source line 147:
`template.bonds.to_indices() + index`). -/
def offset2 (l : List (Nat × Nat)) (c : Nat) : List (List Nat) :=
  l.map (fun p => [p.1 + c, p.2 + c])

/-- Offset a list of angle triples by the cursor (source line 149). -/
def offset3 (l : List (Nat × Nat × Nat)) (c : Nat) : List (List Nat) :=
  l.map (fun p => [p.1 + c, p.2.1 + c, p.2.2 + c])

/-- Offset a list of dihedral/improper quadruples by the cursor
(source lines 151 and 153). -/
def offset4 (l : List (Nat × Nat × Nat × Nat)) (c : Nat) : List (List Nat) :=
  l.map (fun p => [p.1 + c, p.2.1 + c, p.2.2.1 + c, p.2.2.2 + c])

/-- One iteration of the `while` loop of `reassign_topology`
(source lines 128-156), in the source's operation order: resolve the template
from the cursor atom's label; write the template's residue names onto the
`nres` residues starting at the cursor atom's residue index; copy each defined
per-atom attribute onto the atom slice `[index, index+k)`; extend the four
bonded accumulators by the template's index tuples offset by `index`; and
advance the cursor by the template's atom count `k`. -/
def stepBlock (S : List Template) (index : Nat) (u : PUniverse) (acc : Acc) :
    Except PyErr (Nat × PUniverse × Acc) :=
  match resolveTemplate S u index with
  | Except.error e => Except.error e
  | Except.ok (ri, _, tp) =>
    let k := tp.atomRes.length
    match setSliceList u.resnames ri (ri + tp.resnames.length) tp.resnames with
    | Except.error e => Except.error e
    | Except.ok rn2 =>
      match setOptAttr u.types index (index + k) tp.types ("types") with
      | Except.error e => Except.error e
      | Except.ok ty2 =>
        match setOptAttr u.names index (index + k) tp.names ("names") with
        | Except.error e => Except.error e
        | Except.ok nm2 =>
          match setOptAttr u.charges index (index + k) tp.charges ("charges") with
          | Except.error e => Except.error e
          | Except.ok ch2 =>
            match setOptAttr u.masses index (index + k) tp.masses ("masses") with
            | Except.error e => Except.error e
            | Except.ok ms2 =>
              Except.ok (index + k,
                { u with resnames := rn2, types := ty2, names := nm2,
                         charges := ch2, masses := ms2 },
                { bonds := acc.bonds ++ offset2 (tp.bonds.getD []) index,
                  angles := acc.angles ++ offset3 (tp.angles.getD []) index,
                  dihedrals := acc.dihedrals ++ offset4 (tp.dihedrals.getD []) index,
                  impropers := acc.impropers ++ offset4 (tp.impropers.getD []) index })

/-- The `while index < len(new.atoms)` loop of `reassign_topology`, indexed by
fuel.  `none` means the fuel was exhausted while the guard still held (the
Python loop would still be running); `some` is the loop's actual outcome. -/
def loopFuel (S : List Template) : Nat → Nat → PUniverse → Acc →
    Option (Except PyErr (PUniverse × Acc))
  | 0, index, u, acc =>
      if index < u.resindices.length then none else some (Except.ok (u, acc))
  | Nat.succ f, index, u, acc =>
      if index < u.resindices.length then
        match stepBlock S index u acc with
        | Except.error e => some (Except.error e)
        | Except.ok r => loopFuel S f r.1 r.2.1 r.2.2
      else some (Except.ok (u, acc))

/-- The warning text of source line 126. -/
def partialMsg : String := "added attribute which not all templates had"

/-- The warning emitted for one attribute by source lines 125-126: a warning
is recorded exactly when some template has the attribute (the container was
added) but not all templates have it. -/
def provisionWarn (anyHas allHave : Bool) : List String :=
  if anyHas then (if allHave then [] else [partialMsg]) else []

/-- Attribute provisioning, source lines 120-126: for each of types, names,
charges, masses (in that order), if any template has the attribute, add a
default-initialised container for it to the packed universe (empty strings
for types/names, zeros for charges/masses), and record the non-fatal warning
when not all templates have it.  (The Python loop interleaves container
additions and warnings; the resulting universe and warning list are the
same.) -/
def addAttrDefaults (S : List Template) (u : PUniverse) : PUniverse × List String :=
  let n := u.resindices.length
  let u1 := if S.any (fun p => p.types.isSome) then
      { u with types := some (List.replicate n "") } else u
  let u2 := if S.any (fun p => p.names.isSome) then
      { u1 with names := some (List.replicate n "") } else u1
  let u3 := if S.any (fun p => p.charges.isSome) then
      { u2 with charges := some (List.replicate n (0 : Int)) } else u2
  let u4 := if S.any (fun p => p.masses.isSome) then
      { u3 with masses := some (List.replicate n (0 : Int)) } else u3
  (u4,
    provisionWarn (S.any fun p => p.types.isSome) (S.all fun p => p.types.isSome)
    ++ provisionWarn (S.any fun p => p.names.isSome) (S.all fun p => p.names.isSome)
    ++ provisionWarn (S.any fun p => p.charges.isSome)
        (S.all fun p => p.charges.isSome)
    ++ provisionWarn (S.any fun p => p.masses.isSome)
        (S.all fun p => p.masses.isSome))

/-- Topology attachment, source lines 158-170.  Note the source's line 163:
when the `angles` accumulator is non-empty, the values attached as the
`angles` attribute are built from the `bonds` list (`for val in bonds`), not
from the `angles` list. -/
def attachTopology (u : PUniverse) (acc : Acc) : PUniverse :=
  let u1 := if acc.bonds.isEmpty then u else { u with bonds := some acc.bonds }
  let u2 := if acc.angles.isEmpty then u1 else { u1 with angles := some acc.bonds }
  let u3 := if acc.dihedrals.isEmpty then u2 else { u2 with dihedrals := some acc.dihedrals }
  let u4 := if acc.impropers.isEmpty then u3 else { u3 with impropers := some acc.impropers }
  u4

/-- The whole of `reassign_topology` (source lines 95-172): provision
attribute containers, run the block walk (with explicit fuel), then attach the
non-empty bonded lists.  Returns the enriched universe together with the
emitted warnings; `none` models the Python loop not having finished within
`fuel` iterations. -/
def reassign_topology (S : List Template) (new : PUniverse) (fuel : Nat) :
    Option (Except PyErr (PUniverse × List String)) :=
  let pw := addAttrDefaults S new
  match loopFuel S fuel 0 pw.1 Acc.empty with
  | none => none
  | some (Except.error e) => some (Except.error e)
  | some (Except.ok (u2, acc)) => some (Except.ok (attachTopology u2 acc, pw.2))

/-- `PackmolStructure.save_structure` (source lines 40-45): remember the
residue names, overwrite every residue's name with the label `"R" ++ index`
(a Python scalar assignment broadcasts over all residues), write the
coordinate file, then put the remembered names back.  The writer may fail
(`writeFails`); the source has no `try`/`finally`, so the restore on line 45
runs only when the write returns.  The written file is modelled by its
per-atom residue-name column; `Except.error` means the write raised and no
file is produced. -/
def save_structure (ag : Template) (index : Nat) (writeFails : Bool) :
    Except Unit (List String) × Template :=
  let old := ag.resnames
  let lab := "R" ++ Nat.repr index
  let ag2 := { ag with resnames := ag.resnames.map (fun _ => lab) }
  if writeFails then (Except.error (), ag2)
  else (Except.ok (ag2.atomRes.map (fun r => ag2.resnames.getD r "")),
        { ag2 with resnames := old })

/-- Result of the external `packmol` process: exit status and captured
standard output / standard error. -/
structure ProcResult where
  returncode : Int
  stdout : String
  stderr : String
deriving DecidableEq

/-- `run_packmol` (source lines 74-87): a nonzero exit status raises a
`ValueError` whose message carries the exit code and the captured stderr
(source lines 83-84); a zero exit status writes the captured stdout to the
`packmol.stdout` log file, modelled by returning the log content. -/
def run_packmol (p : ProcResult) : Except String String :=
  if p.returncode ≠ 0 then
    Except.error ("Packmol failed with errorcode " ++ toString p.returncode
      ++ " and stderr: " ++ p.stderr)
  else Except.ok p.stdout

/-- Failures of the end-to-end `packmol` pipeline: the packer failure message
raised by `run_packmol`, or an exception escaping `reassign_topology`. -/
inductive PackErr where
  | packing (msg : String)
  | reassembly (e : PyErr)
deriving DecidableEq

/-- The orchestrator `packmol` (source lines 175-198): run the packer, and
only if it succeeded load the output file (`loaded` stands for the universe
`load_packmol_output` would parse) and reassign topology onto it.  Returns the
enriched universe and the log content; `none` models a non-terminating
reassignment loop. -/
def packmol (S : List Template) (proc : ProcResult) (loaded : PUniverse)
    (fuel : Nat) : Option (Except PackErr (PUniverse × String)) :=
  match run_packmol proc with
  | Except.error e => some (Except.error (PackErr.packing e))
  | Except.ok log =>
    match reassign_topology S loaded fuel with
    | none => none
    | some (Except.error e) => some (Except.error (PackErr.reassembly e))
    | some (Except.ok (u, _)) => some (Except.ok (u, log))

/-- `structures[t]` for an already-validated index, with a default template
out of range (only used with `t < S.length`). -/
def tpl (S : List Template) (t : Nat) : Template := S.getD t default

/-- The residue indices of the packed universe that Packmol produces for the
replica blocks `bs` (each entry of `bs` is a template index), when residue
numbering starts at `roff`: each block contributes its template's per-atom
local residue indices shifted by the running residue offset. -/
def packedResindices (S : List Template) : List Nat → Nat → List Nat
  | [], _ => []
  | t :: rest, roff =>
      ((tpl S t).atomRes.map (fun r => r + roff))
        ++ packedResindices S rest (roff + (tpl S t).resnames.length)

/-- The per-residue labels of the packed universe before reassignment: each
block of template `t` contributes its residue count copies of the Replica
Label `"R" ++ t`. -/
def labelsOf (S : List Template) : List Nat → List String
  | [] => []
  | t :: rest =>
      List.replicate (tpl S t).resnames.length ("R" ++ Nat.repr t) ++ labelsOf S rest

/-- The per-residue names after reassignment: each block contributes its
template's original residue names, in order. -/
def restoredOf (S : List Template) : List Nat → List (String)
  | [] => []
  | t :: rest => (tpl S t).resnames ++ restoredOf S rest

/-- The packed universe as loaded from Packmol's output for replica blocks
`bs`: atoms carry only coordinates and the Replica Labels in the residue-name
field; no attribute containers, no bonded topology. -/
def packedOf (S : List Template) (bs : List Nat) : PUniverse :=
  { resindices := packedResindices S bs 0
    resnames := labelsOf S bs
    types := none, names := none, charges := none, masses := none
    bonds := none, angles := none, dihedrals := none, impropers := none }

/-- The global bond list the spec prescribes: each block of template `t` at
cursor `c` contributes `t`'s bond pairs `(a, b)` as `[a + c, b + c]`, and the
cursor advances by the template's atom count. -/
def expectedBonds (S : List Template) : List Nat → Nat → List (List Nat)
  | [], _ => []
  | t :: rest, c =>
      offset2 ((tpl S t).bonds.getD []) c
        ++ expectedBonds S rest (c + (tpl S t).atomRes.length)

/-- The global angle list the spec prescribes (each template's own angle
triples, offset by the block cursor). -/
def expectedAngles (S : List Template) : List Nat → Nat → List (List Nat)
  | [], _ => []
  | t :: rest, c =>
      offset3 ((tpl S t).angles.getD []) c
        ++ expectedAngles S rest (c + (tpl S t).atomRes.length)

/-- The global dihedral list (each template's quadruples, offset). -/
def expectedDihedrals (S : List Template) : List Nat → Nat → List (List Nat)
  | [], _ => []
  | t :: rest, c =>
      offset4 ((tpl S t).dihedrals.getD []) c
        ++ expectedDihedrals S rest (c + (tpl S t).atomRes.length)

/-- The global improper list (each template's quadruples, offset). -/
def expectedImpropers (S : List Template) : List Nat → Nat → List (List Nat)
  | [], _ => []
  | t :: rest, c =>
      offset4 ((tpl S t).impropers.getD []) c
        ++ expectedImpropers S rest (c + (tpl S t).atomRes.length)

/-- The per-atom residue names after reassignment: atom `j` of a block of
template `t` is named by `t`'s residue `t.atomRes[j]`. -/
def expectedAtomResnames (S : List Template) : List Nat → List String
  | [] => []
  | t :: rest =>
      ((tpl S t).atomRes.map (fun r => (tpl S t).resnames.getD r ""))
        ++ expectedAtomResnames S rest

/-- `some l` has length `n` (used for container-shape invariants). -/
def optLenEq {α : Type} (o : Option (List α)) (n : Nat) : Prop :=
  match o with
  | none => True
  | some l => l.length = n

/-- Well-formedness of one template as referenced by a replica block `t`:
the index is in range; the template has at least one atom; its first atom lies
in its first residue; every atom's local residue index is in range; the
Replica Label round-trips through the strip-and-parse of source line 132; and
each defined per-atom attribute has one value per atom. -/
def WFTpl (S : List Template) (t : Nat) : Prop :=
  t < S.length ∧
  (tpl S t).atomRes ≠ [] ∧
  (tpl S t).atomRes.getD 0 0 = 0 ∧
  (∀ r ∈ (tpl S t).atomRes, r < (tpl S t).resnames.length) ∧
  pyParseInt (("R" ++ Nat.repr t).drop 1) = Except.ok (t : Int) ∧
  optLenEq (tpl S t).types (tpl S t).atomRes.length ∧
  optLenEq (tpl S t).names (tpl S t).atomRes.length ∧
  optLenEq (tpl S t).charges (tpl S t).atomRes.length ∧
  optLenEq (tpl S t).masses (tpl S t).atomRes.length

/-- Well-formedness of a block sequence: every referenced template is
well-formed. -/
def WFBlocks (S : List Template) (bs : List Nat) : Prop :=
  ∀ t ∈ bs, WFTpl S t

/-- Container-shape invariant of the packed universe during the block walk:
each attribute container, when present, has one entry per atom, and every
attribute defined by a still-unprocessed block's template has a container
(guaranteed by provisioning). -/
def UOK (S : List Template) (bs : List Nat) (u : PUniverse) : Prop :=
  optLenEq u.types u.natoms ∧ optLenEq u.names u.natoms ∧
  optLenEq u.charges u.natoms ∧ optLenEq u.masses u.natoms ∧
  (∀ t ∈ bs, ((tpl S t).types.isSome → u.types.isSome) ∧
    ((tpl S t).names.isSome → u.names.isSome) ∧
    ((tpl S t).charges.isSome → u.charges.isSome) ∧
    ((tpl S t).masses.isSome → u.masses.isSome))

/-- Decidable equality for `Except` results (used to evaluate the embedded
functions on concrete inputs). -/
instance {ε α : Type} [DecidableEq ε] [DecidableEq α] : DecidableEq (Except ε α) := fun a b =>
  match a, b with
  | Except.error e, Except.error f =>
      if h : e = f then Decidable.isTrue (by rw [h])
      else Decidable.isFalse (by simp [h])
  | Except.ok x, Except.ok y =>
      if h : x = y then Decidable.isTrue (by rw [h])
      else Decidable.isFalse (by simp [h])
  | Except.error _, Except.ok _ => Decidable.isFalse (fun hh => Except.noConfusion hh)
  | Except.ok _, Except.error _ => Decidable.isFalse (fun hh => Except.noConfusion hh)

instance {α : Type} (o : Option (List α)) (n : Nat) : Decidable (optLenEq o n) :=
  match o with
  | none => Decidable.isTrue trivial
  | some l => Nat.decEq l.length n

instance (S : List Template) (t : Nat) : Decidable (WFTpl S t) := by
  unfold WFTpl
  infer_instance

instance (S : List Template) (bs : List Nat) : Decidable (WFBlocks S bs) := by
  unfold WFBlocks
  infer_instance

/-- The per-atom residue names of the packed universe before reassignment:
each atom of a block of template `t` carries the Replica Label `"R" ++ t`. -/
def labelAtomResnames (S : List Template) : List Nat → List String
  | [] => []
  | t :: rest =>
      List.replicate (tpl S t).atomRes.length ("R" ++ Nat.repr t)
        ++ labelAtomResnames S rest

section ConcreteInputs

/-- Failing input for the angles-sourcing defect: a single template of three
atoms in one residue, with two bonds and one angle. -/
def tplAngles : Template :=
  { atomRes := [0, 0, 0], resnames := ["MOL"], types := none, names := none,
    charges := none, masses := none, bonds := some [(0, 1), (1, 2)],
    angles := some [(0, 1, 2)], dihedrals := none, impropers := none }

/-- The universe `reassign_topology` produces on `packedOf [tplAngles] [0]`:
its `angles` attribute holds the offset bond pairs, not the angle triple. -/
def uAnglesOut : PUniverse :=
  { resindices := [0, 0, 0], resnames := ["MOL"],
    types := none, names := none, charges := none, masses := none,
    bonds := some [[0, 1], [1, 2]], angles := some [[0, 1], [1, 2]],
    dihedrals := none, impropers := none }

/-- A plain three-atom, one-residue template with no extra attributes. -/
def tplSOL : Template :=
  { atomRes := [0, 0, 0], resnames := ["SOL"], types := none, names := none,
    charges := none, masses := none, bonds := none, angles := none,
    dihedrals := none, impropers := none }

/-- A packed universe of only two atoms whose label points at the three-atom
template `tplSOL`: the block at cursor 0 runs past the end of the sequence. -/
def uShort : PUniverse :=
  { resindices := [0, 0], resnames := ["R0"],
    types := none, names := none, charges := none, masses := none,
    bonds := none, angles := none, dihedrals := none, impropers := none }

/-- What `reassign_topology` returns on the overrunning input `uShort`:
a normally-completed universe, not an error. -/
def uShortOut : PUniverse :=
  { resindices := [0, 0], resnames := ["SOL"],
    types := none, names := none, charges := none, masses := none,
    bonds := none, angles := none, dihedrals := none, impropers := none }

/-- Scenario template A: 3 atoms, 1 residue, bonds (0,1) and (1,2). -/
def tplA : Template :=
  { atomRes := [0, 0, 0], resnames := ["AAA"], types := none, names := none,
    charges := none, masses := none, bonds := some [(0, 1), (1, 2)],
    angles := none, dihedrals := none, impropers := none }

/-- Scenario template B: 2 atoms, 1 residue, bond (0,1). -/
def tplB : Template :=
  { atomRes := [0, 0], resnames := ["BBB"], types := none, names := none,
    charges := none, masses := none, bonds := some [(0, 1)],
    angles := none, dihedrals := none, impropers := none }

/-- A one-atom template that defines charges (for the partial-attribute
scenario). -/
def tplCharged : Template :=
  { atomRes := [0], resnames := ["CHG"], types := none, names := none,
    charges := some [1], masses := none, bonds := none, angles := none,
    dihedrals := none, impropers := none }

/-- A template whose residue names survive a serialisation round trip. -/
def tplSave : Template :=
  { atomRes := [0, 0, 1], resnames := ["SOL", "CL"], types := none, names := none,
    charges := none, masses := none, bonds := none, angles := none,
    dihedrals := none, impropers := none }

/-- A packer process that failed with exit status 173 and the stderr text of
the spec's scenario. -/
def procFail : ProcResult :=
  { returncode := 173, stdout := "partial output", stderr := "cannot converge" }

/-- A packer process that exited cleanly. -/
def procOk : ProcResult :=
  { returncode := 0, stdout := "packing log", stderr := "" }

/-- A packed universe whose first atom carries a malformed label (the tail
after the leading marker character does not parse as an integer). -/
def uBadParse : PUniverse :=
  { resindices := [0], resnames := ["XYZ"],
    types := none, names := none, charges := none, masses := none,
    bonds := none, angles := none, dihedrals := none, impropers := none }

/-- A packed universe whose first atom's label parses to 5, out of range for
a one-element descriptor list. -/
def uBadIndex : PUniverse :=
  { resindices := [0], resnames := ["R5"],
    types := none, names := none, charges := none, masses := none,
    bonds := none, angles := none, dihedrals := none, impropers := none }

/-- A one-atom packed universe labelled for template 0 (used with a
zero-atom template to exhibit non-termination of the cursor walk). -/
def uOne : PUniverse :=
  { resindices := [0], resnames := ["R0"],
    types := none, names := none, charges := none, masses := none,
    bonds := none, angles := none, dihedrals := none, impropers := none }

/-- The zero-atom template: an empty AtomGroup has no atoms, no residues,
and contributes no attribute values or bonded terms. -/
def emptyTemplate : Template :=
  { atomRes := [], resnames := [], types := none, names := none,
    charges := none, masses := none, bonds := none, angles := none,
    dihedrals := none, impropers := none }

/-- A three-atom packed universe labelled for template 1, carrying a charges
container (as provisioning would produce). -/
def vC7 : PUniverse :=
  { resindices := [0, 0, 0], resnames := ["R1"], types := none, names := none,
    charges := some [9, 9, 9], masses := none, bonds := none, angles := none,
    dihedrals := none, impropers := none }

/-- The universe after one block step on `vC7` (residue name restored, the
charges container untouched because the template lacks charges). -/
def vC7out : PUniverse :=
  { vC7 with resnames := ["SOL"] }

/-- The full result of that block step. -/
def rC7 : Nat × PUniverse × Acc := (3, vC7out, Acc.empty)

end ConcreteInputs

/-! ### Supporting lemmas -/

theorem getD_map_const {α β : Type} (l : List α) (b d : β) (r : Nat)
    (h : r < l.length) : (l.map (fun _ => b)).getD r d = b := by
  rw [List.getD_eq_getElem _ _ (by simpa using h)]
  simp

theorem pyParseInt_error_shape {s : String} {e : PyErr}
    (h : pyParseInt s = Except.error e) : ∃ m, e = PyErr.valueError m := by
  unfold pyParseInt at h
  split at h
  · exact ⟨s, (Except.error.injEq _ _).mp h |>.symm⟩
  · split_ifs at h <;>
      first
        | exact ⟨s, (Except.error.injEq _ _).mp h |>.symm⟩
        | exact Except.noConfusion h

theorem pyIndex_error_shape {n : Nat} {i : Int} {e : PyErr}
    (h : pyIndex n i = Except.error e) : ∃ m, e = PyErr.indexError m := by
  unfold pyIndex at h
  split_ifs at h <;>
    first
      | exact ⟨"list index out of range", (Except.error.injEq _ _).mp h |>.symm⟩
      | exact Except.noConfusion h

theorem pyIndex_ofNat (n t : Nat) (h : t < n) : pyIndex n (t : Int) = Except.ok t := by
  unfold pyIndex
  rw [if_pos (Int.ofNat_nonneg t), if_pos (by exact_mod_cast h)]
  simp

theorem addAttrDefaults_resnames (S : List Template) (u : PUniverse) :
    ((addAttrDefaults S u).1).resnames = u.resnames ∧
    ((addAttrDefaults S u).1).resindices = u.resindices ∧
    ((addAttrDefaults S u).1).bonds = u.bonds ∧
    ((addAttrDefaults S u).1).angles = u.angles ∧
    ((addAttrDefaults S u).1).dihedrals = u.dihedrals ∧
    ((addAttrDefaults S u).1).impropers = u.impropers := by
  dsimp only [addAttrDefaults]
  split_ifs <;> exact ⟨rfl, rfl, rfl, rfl, rfl, rfl⟩

theorem setSliceList_exact {α : Type} (P M Suf vals : List α)
    (h : vals.length = M.length) :
    setSliceList (P ++ (M ++ Suf)) P.length (P.length + M.length) vals =
      Except.ok (P ++ (vals ++ Suf)) := by
  have hn : sliceLen (P ++ (M ++ Suf)).length P.length (P.length + M.length)
      = M.length := by
    unfold sliceLen
    simp only [List.length_append]
    omega
  unfold setSliceList
  rw [hn, if_pos h]
  have h1 : (P ++ (M ++ Suf)).take P.length = P := List.take_left P (M ++ Suf)
  have h2 : (P ++ (M ++ Suf)).drop (P.length + M.length) = Suf := by
    rw [← List.append_assoc, ← List.length_append]
    exact List.drop_left (P ++ M) Suf
  rw [h1, h2, List.append_assoc]

theorem setSliceList_ok_exact {α : Type} (cur vals : List α) (lo : Nat)
    (hle : lo + vals.length ≤ cur.length) :
    ∃ out, setSliceList cur lo (lo + vals.length) vals = Except.ok out ∧
      out.length = cur.length := by
  have hn : sliceLen cur.length lo (lo + vals.length) = vals.length := by
    unfold sliceLen
    omega
  unfold setSliceList
  rw [hn, if_pos rfl]
  refine ⟨_, rfl, ?_⟩
  simp only [List.length_append, List.length_take, List.length_drop]
  omega

theorem setSliceList_nil {α : Type} (l : List α) (lo hi : Nat)
    (h : sliceLen l.length lo hi = 0) :
    setSliceList l lo hi ([] : List α) = Except.ok l := by
  unfold setSliceList
  rw [h]
  simp

theorem setOptAttr_ok {α : Type} (container : Option (List α)) (lo k n : Nat)
    (vals : Option (List α)) (nm : String)
    (hc : optLenEq container n)
    (hp : vals.isSome → container.isSome)
    (hv : optLenEq vals k)
    (hle : lo + k ≤ n) :
    ∃ c2, setOptAttr container lo (lo + k) vals nm = Except.ok c2 ∧
      optLenEq c2 n ∧ (container.isSome → c2.isSome) := by
  cases vals with
  | none => exact ⟨container, rfl, hc, fun h => h⟩
  | some vs =>
    cases container with
    | none => exact absurd (hp rfl) (by simp)
    | some cur =>
      have hlen : cur.length = n := hc
      have hvl : vs.length = k := hv
      obtain ⟨out, hout, holen⟩ := setSliceList_ok_exact cur vs lo (by omega)
      rw [hvl] at hout
      refine ⟨some out, ?_, ?_, fun _ => rfl⟩
      · simp only [setOptAttr, hout]
      · show out.length = n
        rw [holen, hlen]

theorem pyIndex_ok_lt {n : Nat} {i : Int} {ti : Nat}
    (h : pyIndex n i = Except.ok ti) : ti < n := by
  unfold pyIndex at h
  split_ifs at h with h1 h2 h3
  all_goals
    first
      | · have := (Except.ok.injEq _ _).mp h
          omega
      | exact absurd h (by simp)

theorem resolveTemplate_run (S : List Template) (t : Nat) (rest : List Nat)
    (Npre : List String) (Rpre : List Nat) (u : PUniverse)
    (hWF : WFTpl S t)
    (hres : u.resnames = Npre ++ labelsOf S (t :: rest))
    (hidx : u.resindices = Rpre ++ packedResindices S (t :: rest) Npre.length) :
    resolveTemplate S u Rpre.length = Except.ok (Npre.length, t, tpl S t) := by
  obtain ⟨hlt, hne, h0, hr, hparse, -⟩ := hWF
  obtain ⟨a0, arest, ha⟩ := List.exists_cons_of_ne_nil hne
  have ha0 : a0 = 0 := by
    have := h0
    rw [ha] at this
    simpa using this
  have h0mem : 0 ∈ (tpl S t).atomRes := by
    rw [ha, ← ha0]
    exact List.mem_cons_self _ _
  have hnres : 0 < (tpl S t).resnames.length := hr 0 h0mem
  have hri : u.resindices.getD Rpre.length 0 = Npre.length := by
    rw [hidx, List.getD_append_right _ _ _ _ (le_refl _), Nat.sub_self,
      packedResindices, ha, ha0]
    simp
  have hrn : u.resnames.getD Npre.length "" = "R" ++ Nat.repr t := by
    rw [hres, List.getD_append_right _ _ _ _ (le_refl _), Nat.sub_self, labelsOf]
    obtain ⟨m, hm⟩ := Nat.exists_eq_add_of_lt hnres
    rw [hm]
    simp [List.replicate_succ]
  unfold resolveTemplate
  simp only [hri, hrn, hparse, pyIndex_ofNat S.length t hlt]
  rfl

theorem stepBlock_run (S : List Template) (t : Nat) (rest : List Nat)
    (Npre : List String) (Rpre : List Nat) (u : PUniverse) (acc : Acc)
    (hWF : WFTpl S t)
    (hres : u.resnames = Npre ++ labelsOf S (t :: rest))
    (hidx : u.resindices = Rpre ++ packedResindices S (t :: rest) Npre.length)
    (hu : UOK S (t :: rest) u) :
    ∃ u2, stepBlock S Rpre.length u acc =
        Except.ok (Rpre.length + (tpl S t).atomRes.length, u2,
          { bonds := acc.bonds ++ offset2 ((tpl S t).bonds.getD []) Rpre.length,
            angles := acc.angles ++ offset3 ((tpl S t).angles.getD []) Rpre.length,
            dihedrals := acc.dihedrals
              ++ offset4 ((tpl S t).dihedrals.getD []) Rpre.length,
            impropers := acc.impropers
              ++ offset4 ((tpl S t).impropers.getD []) Rpre.length }) ∧
      u2.resnames = (Npre ++ (tpl S t).resnames) ++ labelsOf S rest ∧
      u2.resindices = u.resindices ∧
      u2.bonds = u.bonds ∧ u2.angles = u.angles ∧
      u2.dihedrals = u.dihedrals ∧ u2.impropers = u.impropers ∧
      UOK S rest u2 := by
  have hresolve := resolveTemplate_run S t rest Npre Rpre u hWF hres hidx
  obtain ⟨hlt, hne, h0, hr, hparse, hty, hnm, hch, hms⟩ := hWF
  have hwrite : setSliceList u.resnames Npre.length
      (Npre.length + (tpl S t).resnames.length) (tpl S t).resnames =
      Except.ok (Npre ++ ((tpl S t).resnames ++ labelsOf S rest)) := by
    rw [hres, labelsOf]
    have h := setSliceList_exact Npre
      (List.replicate (tpl S t).resnames.length ("R" ++ Nat.repr t))
      (labelsOf S rest) (tpl S t).resnames (by simp)
    simpa using h
  have hk : Rpre.length + (tpl S t).atomRes.length ≤ u.natoms := by
    show _ ≤ u.resindices.length
    rw [hidx, packedResindices]
    simp only [List.length_append, List.length_map]
    omega
  obtain ⟨hcty, hcnm, hcch, hcms, hpres⟩ := hu
  have hself := hpres t (List.mem_cons_self t rest)
  obtain ⟨oty, hoty, hotyLen, hotySome⟩ := setOptAttr_ok u.types Rpre.length
    (tpl S t).atomRes.length u.natoms (tpl S t).types ("types") hcty hself.1 hty hk
  obtain ⟨onm, honm, honmLen, honmSome⟩ := setOptAttr_ok u.names Rpre.length
    (tpl S t).atomRes.length u.natoms (tpl S t).names ("names") hcnm hself.2.1 hnm hk
  obtain ⟨och, hoch, hochLen, hochSome⟩ := setOptAttr_ok u.charges Rpre.length
    (tpl S t).atomRes.length u.natoms (tpl S t).charges ("charges") hcch hself.2.2.1 hch hk
  obtain ⟨oms, homs, homsLen, homsSome⟩ := setOptAttr_ok u.masses Rpre.length
    (tpl S t).atomRes.length u.natoms (tpl S t).masses ("masses") hcms hself.2.2.2 hms hk
  refine ⟨{ u with
              resnames := Npre ++ ((tpl S t).resnames ++ labelsOf S rest),
              types := oty, names := onm, charges := och, masses := oms },
    ?_, by rw [List.append_assoc], rfl, rfl, rfl, rfl, rfl, ?_⟩
  · unfold stepBlock
    simp only [hresolve, hwrite, hoty, honm, hoch, homs]
  · refine ⟨hotyLen, honmLen, hochLen, homsLen, fun x hx => ?_⟩
    have hxmem := hpres x (List.mem_cons_of_mem t hx)
    exact ⟨fun h => hotySome (hxmem.1 h), fun h => honmSome (hxmem.2.1 h),
      fun h => hochSome (hxmem.2.2.1 h), fun h => homsSome (hxmem.2.2.2 h)⟩

theorem loopFuel_run (S : List Template) (bs : List Nat) :
    ∀ (fuel : Nat) (Npre : List String) (Rpre : List Nat) (u : PUniverse) (acc : Acc),
    WFBlocks S bs → bs.length ≤ fuel →
    u.resnames = Npre ++ labelsOf S bs →
    u.resindices = Rpre ++ packedResindices S bs Npre.length →
    UOK S bs u →
    ∃ u2, loopFuel S fuel Rpre.length u acc =
        some (Except.ok (u2,
          { bonds := acc.bonds ++ expectedBonds S bs Rpre.length,
            angles := acc.angles ++ expectedAngles S bs Rpre.length,
            dihedrals := acc.dihedrals ++ expectedDihedrals S bs Rpre.length,
            impropers := acc.impropers ++ expectedImpropers S bs Rpre.length })) ∧
      u2.resnames = Npre ++ restoredOf S bs ∧
      u2.resindices = u.resindices ∧
      u2.bonds = u.bonds ∧ u2.angles = u.angles ∧
      u2.dihedrals = u.dihedrals ∧ u2.impropers = u.impropers := by
  induction bs with
  | nil =>
    intro fuel Npre Rpre u acc _ _ hres hidx _
    have hguard : ¬ (Rpre.length < u.resindices.length) := by
      rw [hidx]
      simp [packedResindices]
    refine ⟨u, ?_, by simpa using hres, rfl, rfl, rfl, rfl, rfl⟩
    cases fuel with
    | zero =>
      simp [loopFuel, hguard, expectedBonds, expectedAngles,
        expectedDihedrals, expectedImpropers]
    | succ f =>
      simp [loopFuel, hguard, expectedBonds, expectedAngles,
        expectedDihedrals, expectedImpropers]
  | cons t rest ih =>
    intro fuel Npre Rpre u acc hWF hfuel hres hidx hu
    obtain ⟨u1, hstep, h1res, h1idx, h1b, h1a, h1d, h1i, h1ok⟩ :=
      stepBlock_run S t rest Npre Rpre u acc (hWF t (List.mem_cons_self t rest))
        hres hidx hu
    have hne : (tpl S t).atomRes ≠ [] := (hWF t (List.mem_cons_self t rest)).2.1
    have hguard : Rpre.length < u.resindices.length := by
      rw [hidx, packedResindices]
      simp only [List.length_append, List.length_map]
      have hpos : 0 < (tpl S t).atomRes.length := List.length_pos.mpr hne
      omega
    cases fuel with
    | zero => exact absurd hfuel (by simp)
    | succ f =>
      have h1idx2 : u1.resindices =
          (Rpre ++ (tpl S t).atomRes.map (fun r => r + Npre.length))
            ++ packedResindices S rest (Npre ++ (tpl S t).resnames).length := by
        rw [h1idx, hidx, packedResindices]
        simp [List.append_assoc, List.length_append]
      obtain ⟨u2, hrec, h2res, h2idx, h2b, h2a, h2d, h2i⟩ :=
        ih f (Npre ++ (tpl S t).resnames)
          (Rpre ++ (tpl S t).atomRes.map (fun r => r + Npre.length)) u1
          { bonds := acc.bonds ++ offset2 ((tpl S t).bonds.getD []) Rpre.length,
            angles := acc.angles ++ offset3 ((tpl S t).angles.getD []) Rpre.length,
            dihedrals := acc.dihedrals
              ++ offset4 ((tpl S t).dihedrals.getD []) Rpre.length,
            impropers := acc.impropers
              ++ offset4 ((tpl S t).impropers.getD []) Rpre.length }
          (fun x hx => hWF x (List.mem_cons_of_mem t hx)) (by simpa using hfuel)
          h1res h1idx2 h1ok
      have hlen : (Rpre ++ (tpl S t).atomRes.map (fun r => r + Npre.length)).length
          = Rpre.length + (tpl S t).atomRes.length := by
        simp
      rw [hlen] at hrec
      refine ⟨u2, ?_, ?_, h2idx.trans h1idx, h2b.trans h1b, h2a.trans h1a,
        h2d.trans h1d, h2i.trans h1i⟩
      · simp only [loopFuel, if_pos hguard, hstep, hrec]
        simp [expectedBonds, expectedAngles, expectedDihedrals, expectedImpropers,
          List.append_assoc]
      · rw [h2res, List.append_assoc]
        simp [restoredOf]

theorem addAttrDefaults_attrs (S : List Template) (u : PUniverse) :
    ((addAttrDefaults S u).1).types =
      (if S.any (fun p => p.types.isSome) then
        some (List.replicate u.resindices.length "") else u.types) ∧
    ((addAttrDefaults S u).1).names =
      (if S.any (fun p => p.names.isSome) then
        some (List.replicate u.resindices.length "") else u.names) ∧
    ((addAttrDefaults S u).1).charges =
      (if S.any (fun p => p.charges.isSome) then
        some (List.replicate u.resindices.length (0 : Int)) else u.charges) ∧
    ((addAttrDefaults S u).1).masses =
      (if S.any (fun p => p.masses.isSome) then
        some (List.replicate u.resindices.length (0 : Int)) else u.masses) := by
  dsimp only [addAttrDefaults]
  split_ifs <;> exact ⟨rfl, rfl, rfl, rfl⟩

theorem provisionWarn_eq (a b : Bool) :
    provisionWarn a b = (if a && !b then [partialMsg] else []) := by
  cases a <;> cases b <;> rfl

theorem addAttrDefaults_warns (S : List Template) (u : PUniverse) :
    (addAttrDefaults S u).2 =
      (if S.any (fun p => p.types.isSome) && !(S.all (fun p => p.types.isSome))
        then [partialMsg] else [])
      ++ (if S.any (fun p => p.names.isSome) && !(S.all (fun p => p.names.isSome))
        then [partialMsg] else [])
      ++ (if S.any (fun p => p.charges.isSome) && !(S.all (fun p => p.charges.isSome))
        then [partialMsg] else [])
      ++ (if S.any (fun p => p.masses.isSome) && !(S.all (fun p => p.masses.isSome))
        then [partialMsg] else []) := by
  show provisionWarn _ _ ++ provisionWarn _ _ ++ provisionWarn _ _
      ++ provisionWarn _ _ = _
  rw [provisionWarn_eq, provisionWarn_eq, provisionWarn_eq, provisionWarn_eq]

theorem tpl_mem (S : List Template) (t : Nat) (h : t < S.length) : tpl S t ∈ S := by
  unfold tpl
  rw [List.getD_eq_getElem _ _ h]
  exact List.getElem_mem h

theorem addAttrDefaults_UOK (S : List Template) (u : PUniverse) (bs : List Nat)
    (hn : u.types = none ∧ u.names = none ∧ u.charges = none ∧ u.masses = none)
    (hbs : ∀ t ∈ bs, t < S.length) :
    UOK S bs (addAttrDefaults S u).1 := by
  obtain ⟨hresn, hresi, -⟩ := addAttrDefaults_resnames S u
  obtain ⟨h1, h2, h3, h4⟩ := addAttrDefaults_attrs S u
  have hnat : ((addAttrDefaults S u).1).natoms = u.resindices.length := by
    show ((addAttrDefaults S u).1).resindices.length = _
    rw [hresi]
  refine ⟨?_, ?_, ?_, ?_, fun t ht => ⟨?_, ?_, ?_, ?_⟩⟩
  · rw [show optLenEq ((addAttrDefaults S u).1).types ((addAttrDefaults S u).1).natoms
      = optLenEq ((addAttrDefaults S u).1).types u.resindices.length from by rw [hnat]]
    rw [h1]
    split_ifs
    · simp [optLenEq]
    · rw [hn.1]; trivial
  · rw [show optLenEq ((addAttrDefaults S u).1).names ((addAttrDefaults S u).1).natoms
      = optLenEq ((addAttrDefaults S u).1).names u.resindices.length from by rw [hnat]]
    rw [h2]
    split_ifs
    · simp [optLenEq]
    · rw [hn.2.1]; trivial
  · rw [show optLenEq ((addAttrDefaults S u).1).charges ((addAttrDefaults S u).1).natoms
      = optLenEq ((addAttrDefaults S u).1).charges u.resindices.length from by rw [hnat]]
    rw [h3]
    split_ifs
    · simp [optLenEq]
    · rw [hn.2.2.1]; trivial
  · rw [show optLenEq ((addAttrDefaults S u).1).masses ((addAttrDefaults S u).1).natoms
      = optLenEq ((addAttrDefaults S u).1).masses u.resindices.length from by rw [hnat]]
    rw [h4]
    split_ifs
    · simp [optLenEq]
    · rw [hn.2.2.2]; trivial
  · intro hs
    rw [h1]
    split_ifs with hany
    · rfl
    · exact absurd (List.any_eq_true.mpr ⟨tpl S t, tpl_mem S t (hbs t ht), hs⟩) hany
  · intro hs
    rw [h2]
    split_ifs with hany
    · rfl
    · exact absurd (List.any_eq_true.mpr ⟨tpl S t, tpl_mem S t (hbs t ht), hs⟩) hany
  · intro hs
    rw [h3]
    split_ifs with hany
    · rfl
    · exact absurd (List.any_eq_true.mpr ⟨tpl S t, tpl_mem S t (hbs t ht), hs⟩) hany
  · intro hs
    rw [h4]
    split_ifs with hany
    · rfl
    · exact absurd (List.any_eq_true.mpr ⟨tpl S t, tpl_mem S t (hbs t ht), hs⟩) hany

theorem attachTopology_fields (u : PUniverse) (acc : Acc) :
    (attachTopology u acc).bonds
        = (if acc.bonds.isEmpty then u.bonds else some acc.bonds) ∧
    (attachTopology u acc).angles
        = (if acc.angles.isEmpty then u.angles else some acc.bonds) ∧
    (attachTopology u acc).dihedrals
        = (if acc.dihedrals.isEmpty then u.dihedrals else some acc.dihedrals) ∧
    (attachTopology u acc).impropers
        = (if acc.impropers.isEmpty then u.impropers else some acc.impropers) ∧
    (attachTopology u acc).resnames = u.resnames ∧
    (attachTopology u acc).resindices = u.resindices := by
  dsimp only [attachTopology]
  split_ifs <;> simp_all

/-- Full characterisation of `reassign_topology` on a well-formed packed
universe `packedOf S bs`: the run completes, restores the per-residue names
block by block, and attaches each non-empty bonded list — with the `angles`
attribute receiving the bond-derived tuples (source line 163). -/
theorem reassign_run (S : List Template) (bs : List Nat) (fuel : Nat)
    (hWF : WFBlocks S bs) (hfuel : bs.length ≤ fuel) :
    ∃ u2, reassign_topology S (packedOf S bs) fuel =
        some (Except.ok (u2, (addAttrDefaults S (packedOf S bs)).2)) ∧
      u2.resnames = restoredOf S bs ∧
      u2.resindices = packedResindices S bs 0 ∧
      u2.bonds = (if expectedBonds S bs 0 = [] then none
        else some (expectedBonds S bs 0)) ∧
      u2.angles = (if expectedAngles S bs 0 = [] then none
        else some (expectedBonds S bs 0)) ∧
      u2.dihedrals = (if expectedDihedrals S bs 0 = [] then none
        else some (expectedDihedrals S bs 0)) ∧
      u2.impropers = (if expectedImpropers S bs 0 = [] then none
        else some (expectedImpropers S bs 0)) := by
  obtain ⟨hresn, hresi, hb0, ha0, hd0, hi0⟩ :=
    addAttrDefaults_resnames S (packedOf S bs)
  have hUOK : UOK S bs (addAttrDefaults S (packedOf S bs)).1 :=
    addAttrDefaults_UOK S (packedOf S bs) bs ⟨rfl, rfl, rfl, rfl⟩
      (fun t ht => (hWF t ht).1)
  have hres : ((addAttrDefaults S (packedOf S bs)).1).resnames =
      ([] : List String) ++ labelsOf S bs := by
    rw [hresn]
    rfl
  have hidx : ((addAttrDefaults S (packedOf S bs)).1).resindices =
      ([] : List Nat) ++ packedResindices S bs (List.length ([] : List String)) := by
    rw [hresi]
    rfl
  obtain ⟨u1, hloop, h1res, h1idx, h1b, h1a, h1d, h1i⟩ :=
    loopFuel_run S bs fuel [] [] (addAttrDefaults S (packedOf S bs)).1 Acc.empty
      hWF hfuel hres hidx hUOK
  simp only [Acc.empty, List.length_nil, List.nil_append] at hloop h1res
  obtain ⟨hfb, hfa, hfd, hfi, hfresn, hfresi⟩ := attachTopology_fields u1
    { bonds := expectedBonds S bs 0, angles := expectedAngles S bs 0,
      dihedrals := expectedDihedrals S bs 0, impropers := expectedImpropers S bs 0 }
  refine ⟨attachTopology u1
    { bonds := expectedBonds S bs 0, angles := expectedAngles S bs 0,
      dihedrals := expectedDihedrals S bs 0, impropers := expectedImpropers S bs 0 },
    ?_, ?_, ?_, ?_, ?_, ?_, ?_⟩
  · unfold reassign_topology
    simp only [Acc.empty, hloop]
  · rw [hfresn, h1res]
  · rw [hfresi, h1idx, hresi]
    rfl
  · rw [hfb, h1b, hb0]
    by_cases h : expectedBonds S bs 0 = [] <;>
      simp [h, packedOf]
  · rw [hfa, h1a, ha0]
    by_cases h : expectedAngles S bs 0 = [] <;>
      simp [h, packedOf]
  · rw [hfd, h1d, hd0]
    by_cases h : expectedDihedrals S bs 0 = [] <;>
      simp [h, packedOf]
  · rw [hfi, h1i, hi0]
    by_cases h : expectedImpropers S bs 0 = [] <;>
      simp [h, packedOf]

/-! ### Claim theorems -/

/-- C1: the claim states that the `angles` topology attribute attached by
`reassign_topology` consists of the templates' own angle index tuples offset
by each block's cursor, sourced independently of the bonds list.  The code
(source line 163, `angles = [tuple(val) for val in bonds]`) instead attaches
the offset *bond pairs* whenever the angle accumulator is non-empty.  This
theorem evaluates the embedded code at the failing input: one template with
one angle `(0,1,2)` and bonds `(0,1),(1,2)`; the attached `angles` attribute
is the bond list `[[0,1],[1,2]]`, not the template's offset angle tuples
`[[0,1,2]]`. -/
theorem c1_angles_sourced_from_bonds :
    reassign_topology [tplAngles] (packedOf [tplAngles] [0]) 2 =
      some (Except.ok (uAnglesOut, [])) ∧
    uAnglesOut.angles = some [[0, 1], [1, 2]] ∧
    uAnglesOut.angles ≠ some (offset3 [(0, 1, 2)] 0) ∧
    tplAngles.angles = some [(0, 1, 2)] ∧
    tplAngles.bonds = some [(0, 1), (1, 2)] := by
  decide

/-- C2 counterexample: a packed structure of two atoms whose Replica Label
points at a three-atom template.  The claim says `reassign_topology` must
fail with a `ReassemblyError` rather than continuing; the code instead
truncates the block slice, advances the cursor past the end of the atom
sequence, and returns a completed universe. -/
theorem c2_counterexample :
    tplSOL.atomRes.length = 3 ∧ uShort.natoms = 2 ∧
    reassign_topology [tplSOL] uShort 5 = some (Except.ok (uShortOut, [])) := by
  decide

/-- C2 (amended): the source defines no `ReassemblyError` and performs no
block-size check.  When the template resolved at the cursor has more atoms
than remain, any successfully completed step advances the cursor past the end
of the atom sequence (the overrunning block is truncated, not rejected). -/
theorem c2_overrun_not_failfast (S : List Template) (index : Nat) (u : PUniverse)
    (acc : Acc) (ri ti : Nat) (tp : Template)
    (hres : resolveTemplate S u index = Except.ok (ri, ti, tp))
    (hover : u.natoms < index + tp.atomRes.length) :
    ∀ r, stepBlock S index u acc = Except.ok r →
      r.1 = index + tp.atomRes.length ∧ u.natoms < r.1 ∧ r.2.1.natoms = u.natoms := by
  intro r hr
  unfold stepBlock at hr
  simp only [hres] at hr
  repeat' split at hr
  all_goals first
    | exact Except.noConfusion hr
    | (cases hr; exact ⟨rfl, hover, rfl⟩)

/-- C2 witness: the amended theorem applied at the concrete overrunning
input. -/
theorem c2_overrun_witness :
    (resolveTemplate [tplSOL] uShort 0 = Except.ok (0, 0, tplSOL) ∧
      uShort.natoms < 0 + tplSOL.atomRes.length) ∧
    ((3, uShortOut, Acc.empty).1 = 0 + tplSOL.atomRes.length ∧
      uShort.natoms < (3, uShortOut, Acc.empty).1 ∧
      (3, uShortOut, Acc.empty).2.1.natoms = uShort.natoms) :=
  ⟨⟨by decide, by decide⟩,
    c2_overrun_not_failfast [tplSOL] 0 uShort Acc.empty 0 0 tplSOL
      (by decide) (by decide) (3, uShortOut, Acc.empty) (by decide)⟩

/-- C4: on the success path of `save_structure`, the written coordinate file
carries the Replica Label `"R" ++ i` as residue name for every atom, and the
template handed back to the caller is bit-identical to the original. -/
theorem c4_save_roundtrip (ag : Template) (i : Nat)
    (h : ∀ r ∈ ag.atomRes, r < ag.resnames.length) :
    (save_structure ag i false).1 =
      Except.ok (ag.atomRes.map (fun _ => "R" ++ Nat.repr i)) ∧
    (save_structure ag i false).2 = ag := by
  constructor
  · simp only [save_structure, Bool.false_eq_true, if_false]
    refine congrArg Except.ok (List.map_congr_left (fun r hr => ?_))
    exact getD_map_const ag.resnames ("R" ++ Nat.repr i) "" r (by simpa using h r hr)
  · rfl

/-- C4 witness: the round trip evaluated on a two-residue, three-atom
template. -/
theorem c4_save_roundtrip_witness :
    (∀ r ∈ tplSave.atomRes, r < tplSave.resnames.length) ∧
    ((save_structure tplSave 7 false).1 =
        Except.ok (tplSave.atomRes.map (fun _ => "R" ++ Nat.repr 7)) ∧
      (save_structure tplSave 7 false).2 = tplSave) :=
  ⟨by decide, c4_save_roundtrip tplSave 7 (by decide)⟩

/-- C5 counterexample: the claim says the template's residue names are
restored on every exit path of `save_structure`.  The source has no
`try`/`finally`: when the coordinate write raises, line 45 (the restore) never
runs, and the caller-owned template is left carrying the Replica Label. -/
theorem c5_counterexample :
    (save_structure tplSave 0 true).2 ≠ tplSave ∧
    (save_structure tplSave 0 true).2.resnames = ["R0", "R0"] ∧
    tplSave.resnames = ["SOL", "CL"] := by
  decide

/-- C5 (amended): restoration of the residue names happens only on the
success path.  If the write raises, the error propagates with the template
still carrying the Replica Label on every residue. -/
theorem c5_no_restore_on_failure (ag : Template) (i : Nat) :
    (save_structure ag i true).1 = Except.error () ∧
    (save_structure ag i true).2.resnames =
      ag.resnames.map (fun _ => "R" ++ Nat.repr i) :=
  ⟨rfl, rfl⟩

/-- C8: a nonzero packer exit status makes `run_packmol` raise an error whose
message carries the exit code and the captured stderr, and the orchestrator
then fails without ever looking at the output file (the result is this same
error for every conceivable loaded universe); a zero exit status returns
normally with the captured stdout persisted as the log. -/
theorem c8_packer_failure (S : List Template) (p : ProcResult) :
    (p.returncode ≠ 0 →
      run_packmol p = Except.error ("Packmol failed with errorcode "
          ++ toString p.returncode ++ " and stderr: " ++ p.stderr) ∧
      ∀ loaded fuel, packmol S p loaded fuel =
        some (Except.error (PackErr.packing ("Packmol failed with errorcode "
          ++ toString p.returncode ++ " and stderr: " ++ p.stderr)))) ∧
    (p.returncode = 0 → run_packmol p = Except.ok p.stdout) := by
  refine ⟨fun h => ⟨?_, fun loaded fuel => ?_⟩, fun h => ?_⟩
  · simp [run_packmol, h]
  · simp [packmol, run_packmol, h]
  · simp [run_packmol, h]

/-- C8 witness: the spec's scenario — exit status 173 with stderr
"cannot converge" raises the carrying error and no output is loaded; a clean
exit returns the log. -/
theorem c8_packer_failure_witness :
    (procFail.returncode ≠ 0 ∧
      run_packmol procFail = Except.error
        ("Packmol failed with errorcode 173 and stderr: cannot converge") ∧
      packmol [] procFail uOne 1 = some (Except.error (PackErr.packing
        ("Packmol failed with errorcode 173 and stderr: cannot converge")))) ∧
    (procOk.returncode = 0 ∧ run_packmol procOk = Except.ok ("packing log")) := by
  have h1 := (c8_packer_failure [] procFail).1 (by decide)
  have h2 := (c8_packer_failure [] procOk).2 (by decide)
  refine ⟨⟨by decide, ?_, ?_⟩, by decide, ?_⟩
  · rw [h1.1]; decide
  · rw [h1.2 uOne 1]; decide
  · rw [h2]; rfl

/-- C3: the bonds attribute attached by `reassign_topology` is exactly the
concatenation, over the replica blocks in packed order, of each block's
template bond pairs `(a, b)` offset to `[a + c, b + c]` by the block's cursor
`c` (this is what `expectedBonds` computes, with the cursor advancing by each
template's atom count). -/
theorem c3_bond_offsets (S : List Template) (bs : List Nat) (fuel : Nat)
    (hWF : WFBlocks S bs) (hfuel : bs.length ≤ fuel)
    (hne : expectedBonds S bs 0 ≠ []) :
    ∃ u2 warns, reassign_topology S (packedOf S bs) fuel =
        some (Except.ok (u2, warns)) ∧
      u2.bonds = some (expectedBonds S bs 0) := by
  obtain ⟨u2, hrun, -, -, hb, -, -, -⟩ := reassign_run S bs fuel hWF hfuel
  exact ⟨u2, _, hrun, by rw [hb, if_neg hne]⟩

/-- C3 witness: the spec's scenario — template A (3 atoms, bonds (0,1),(1,2))
twice then template B (2 atoms, bond (0,1)) once gives exactly the global
bonds (0,1),(1,2),(3,4),(4,5),(6,7). -/
theorem c3_bond_offsets_witness :
    (WFBlocks [tplA, tplB] [0, 0, 1] ∧ ([0, 0, 1] : List Nat).length ≤ 3 ∧
      expectedBonds [tplA, tplB] [0, 0, 1] 0 ≠ []) ∧
    (∃ u2 warns,
      reassign_topology [tplA, tplB] (packedOf [tplA, tplB] [0, 0, 1]) 3 =
        some (Except.ok (u2, warns)) ∧
      u2.bonds = some [[0, 1], [1, 2], [3, 4], [4, 5], [6, 7]]) := by
  refine ⟨⟨by decide, by decide, by decide⟩, ?_⟩
  obtain ⟨u2, w, hrun, hb⟩ :=
    c3_bond_offsets [tplA, tplB] [0, 0, 1] 3 (by decide) (by decide) (by decide)
  refine ⟨u2, w, hrun, ?_⟩
  rw [hb]
  decide

theorem getD_replicate {α : Type} (n : Nat) (a : α) (i : Nat) (d : α)
    (h : i < n) : (List.replicate n a).getD i d = a := by
  rw [List.getD_eq_getElem _ _ (by simpa using h)]
  simp

theorem map_getD_restored (S : List Template) (bs : List Nat)
    (h : ∀ t ∈ bs, ∀ r ∈ (tpl S t).atomRes, r < (tpl S t).resnames.length) :
    ∀ (Npre : List String),
      (packedResindices S bs Npre.length).map
        (fun ri => (Npre ++ restoredOf S bs).getD ri "")
      = expectedAtomResnames S bs := by
  induction bs with
  | nil =>
    intro Npre
    simp [packedResindices, expectedAtomResnames]
  | cons t rest ih =>
    intro Npre
    have hht := h t (List.mem_cons_self t rest)
    rw [packedResindices, restoredOf, expectedAtomResnames, List.map_append]
    congr 1
    · rw [List.map_map]
      apply List.map_congr_left
      intro r hr
      show (Npre ++ ((tpl S t).resnames ++ restoredOf S rest)).getD
        (r + Npre.length) "" = (tpl S t).resnames.getD r ""
      rw [List.getD_append_right _ _ _ _ (Nat.le_add_left _ _),
        Nat.add_sub_cancel, List.getD_append _ _ _ _ (hht r hr)]
    · have hl : Npre.length + (tpl S t).resnames.length
          = (Npre ++ (tpl S t).resnames).length := by simp
      simp only [hl, ← List.append_assoc]
      exact ih (fun x hx => h x (List.mem_cons_of_mem t hx))
        (Npre ++ (tpl S t).resnames)

theorem map_getD_labels (S : List Template) (bs : List Nat)
    (h : ∀ t ∈ bs, ∀ r ∈ (tpl S t).atomRes, r < (tpl S t).resnames.length) :
    ∀ (Npre : List String),
      (packedResindices S bs Npre.length).map
        (fun ri => (Npre ++ labelsOf S bs).getD ri "")
      = labelAtomResnames S bs := by
  induction bs with
  | nil =>
    intro Npre
    simp [packedResindices, labelAtomResnames]
  | cons t rest ih =>
    intro Npre
    have hht := h t (List.mem_cons_self t rest)
    rw [packedResindices, labelsOf, labelAtomResnames, List.map_append]
    congr 1
    · rw [List.map_map]
      refine ((List.map_congr_left ?_).trans (List.map_const' _ _))
      intro r hr
      show (Npre ++ (List.replicate (tpl S t).resnames.length ("R" ++ Nat.repr t)
          ++ labelsOf S rest)).getD (r + Npre.length) "" = "R" ++ Nat.repr t
      rw [List.getD_append_right _ _ _ _ (Nat.le_add_left _ _),
        Nat.add_sub_cancel,
        List.getD_append _ _ _ _ (by simpa using hht r hr),
        getD_replicate _ _ _ _ (hht r hr)]
    · have hl : Npre.length + (tpl S t).resnames.length
          = (Npre ++ List.replicate (tpl S t).resnames.length
              ("R" ++ Nat.repr t)).length := by simp
      simp only [hl, ← List.append_assoc]
      exact ih (fun x hx => h x (List.mem_cons_of_mem t hx))
        (Npre ++ List.replicate (tpl S t).resnames.length ("R" ++ Nat.repr t))

theorem expected_ne_labels (S : List Template) (bs : List Nat)
    (hWF : ∀ t ∈ bs, ∀ r ∈ (tpl S t).atomRes, r < (tpl S t).resnames.length)
    (hlab : ∀ t ∈ bs, ∀ s ∈ (tpl S t).resnames, s ≠ "R" ++ Nat.repr t) :
    ∀ i < (expectedAtomResnames S bs).length,
      (expectedAtomResnames S bs).getD i "" ≠ (labelAtomResnames S bs).getD i "" := by
  induction bs with
  | nil =>
    intro i hi
    simp [expectedAtomResnames] at hi
  | cons t rest ih =>
    intro i hi
    have hht := hWF t (List.mem_cons_self t rest)
    rw [expectedAtomResnames, labelAtomResnames]
    by_cases hlt : i < (tpl S t).atomRes.length
    · rw [List.getD_append _ _ _ _ (by simpa using hlt),
        List.getD_append _ _ _ _ (by simpa using hlt),
        getD_replicate _ _ _ _ hlt,
        List.getD_eq_getElem _ _ (by simpa using hlt)]
      simp only [List.getElem_map]
      have hmem : (tpl S t).atomRes[i] ∈ (tpl S t).atomRes := List.getElem_mem _
      have hrb := hht _ hmem
      have hmem2 : (tpl S t).resnames.getD (tpl S t).atomRes[i] ""
          ∈ (tpl S t).resnames := by
        rw [List.getD_eq_getElem _ _ hrb]
        exact List.getElem_mem _
      exact hlab t (List.mem_cons_self t rest) _ hmem2
    · have hl1 : ((tpl S t).atomRes.map
          (fun r => (tpl S t).resnames.getD r "")).length ≤ i := by
        simpa using Nat.le_of_not_lt hlt
      have hl2 : (List.replicate (tpl S t).atomRes.length
          ("R" ++ Nat.repr t)).length ≤ i := by
        simpa using Nat.le_of_not_lt hlt
      rw [List.getD_append_right _ _ _ _ hl1, List.getD_append_right _ _ _ _ hl2]
      simp only [List.length_map, List.length_replicate]
      apply ih (fun x hx => hWF x (List.mem_cons_of_mem t hx))
        (fun x hx => hlab x (List.mem_cons_of_mem t hx))
      rw [expectedAtomResnames] at hi
      simp only [List.length_append, List.length_map] at hi
      omega

/-- C6: on a well-formed packed universe whose templates' residue names are
distinct from the Replica Labels, `reassign_topology` completes and every
atom's residue name equals the corresponding residue name of its originating
template (`expectedAtomResnames`), no atom retaining its transient Replica
Label (the per-atom name sequence disagrees with the pre-reassignment one at
every position). -/
theorem c6_resnames_restored (S : List Template) (bs : List Nat) (fuel : Nat)
    (hWF : WFBlocks S bs) (hfuel : bs.length ≤ fuel)
    (hlab : ∀ t ∈ bs, ∀ s ∈ (tpl S t).resnames, s ≠ "R" ++ Nat.repr t) :
    ∃ u2 warns, reassign_topology S (packedOf S bs) fuel =
        some (Except.ok (u2, warns)) ∧
      u2.atomResnames = expectedAtomResnames S bs ∧
      (packedOf S bs).atomResnames = labelAtomResnames S bs ∧
      ∀ i < u2.atomResnames.length,
        u2.atomResnames.getD i "" ≠ (packedOf S bs).atomResnames.getD i "" := by
  obtain ⟨u2, hrun, hres, hidx, -, -, -, -⟩ := reassign_run S bs fuel hWF hfuel
  have hWFr : ∀ t ∈ bs, ∀ r ∈ (tpl S t).atomRes, r < (tpl S t).resnames.length :=
    fun t ht => (hWF t ht).2.2.2.1
  have hmapR := map_getD_restored S bs hWFr []
  have hmapL := map_getD_labels S bs hWFr []
  simp only [List.length_nil, List.nil_append] at hmapR hmapL
  have h2 : u2.atomResnames = expectedAtomResnames S bs := by
    unfold PUniverse.atomResnames
    rw [hidx, hres]
    exact hmapR
  have h0 : (packedOf S bs).atomResnames = labelAtomResnames S bs := by
    unfold PUniverse.atomResnames
    exact hmapL
  refine ⟨u2, _, hrun, h2, h0, ?_⟩
  intro i hi
  rw [h2, h0]
  rw [h2] at hi
  exact expected_ne_labels S bs hWFr hlab i hi

/-- C6 witness: the two-template scenario, with each atom's restored residue
name checked against its template and against its former label. -/
theorem c6_resnames_restored_witness :
    (WFBlocks [tplA, tplB] [0, 0, 1] ∧ ([0, 0, 1] : List Nat).length ≤ 3 ∧
      (∀ t ∈ ([0, 0, 1] : List Nat), ∀ s ∈ (tpl [tplA, tplB] t).resnames,
        s ≠ "R" ++ Nat.repr t)) ∧
    (∃ u2 warns,
      reassign_topology [tplA, tplB] (packedOf [tplA, tplB] [0, 0, 1]) 3 =
        some (Except.ok (u2, warns)) ∧
      u2.atomResnames = ["AAA", "AAA", "AAA", "AAA", "AAA", "AAA", "BBB", "BBB"] ∧
      u2.atomResnames.getD 0 "" ≠
        (packedOf [tplA, tplB] [0, 0, 1]).atomResnames.getD 0 "") := by
  refine ⟨⟨by decide, by decide, by decide⟩, ?_⟩
  obtain ⟨u2, w, hrun, h2, h0, hne⟩ :=
    c6_resnames_restored [tplA, tplB] [0, 0, 1] 3 (by decide) (by decide) (by decide)
  refine ⟨u2, w, hrun, ?_, ?_⟩
  · rw [h2]
    decide
  · exact hne 0 (by rw [h2]; decide)

theorem stepBlock_preserves_missing (S : List Template) (index : Nat)
    (v : PUniverse) (acc : Acc) (ri ti : Nat) (tp : Template)
    (r : Nat × PUniverse × Acc)
    (hres : resolveTemplate S v index = Except.ok (ri, ti, tp))
    (hstep : stepBlock S index v acc = Except.ok r) :
    (tp.types = none → r.2.1.types = v.types) ∧
    (tp.names = none → r.2.1.names = v.names) ∧
    (tp.charges = none → r.2.1.charges = v.charges) ∧
    (tp.masses = none → r.2.1.masses = v.masses) := by
  unfold stepBlock at hstep
  simp only [hres] at hstep
  cases h1 : setSliceList v.resnames ri (ri + tp.resnames.length) tp.resnames with
  | error e => simp [h1] at hstep
  | ok rn2 =>
  simp only [h1] at hstep
  cases h2 : setOptAttr v.types index (index + tp.atomRes.length)
      tp.types ("types") with
  | error e => simp [h2] at hstep
  | ok ty2 =>
  simp only [h2] at hstep
  cases h3 : setOptAttr v.names index (index + tp.atomRes.length)
      tp.names ("names") with
  | error e => simp [h3] at hstep
  | ok nm2 =>
  simp only [h3] at hstep
  cases h4 : setOptAttr v.charges index (index + tp.atomRes.length)
      tp.charges ("charges") with
  | error e => simp [h4] at hstep
  | ok ch2 =>
  simp only [h4] at hstep
  cases h5 : setOptAttr v.masses index (index + tp.atomRes.length)
      tp.masses ("masses") with
  | error e => simp [h5] at hstep
  | ok ms2 =>
  simp only [h5] at hstep
  cases hstep
  refine ⟨fun hn => ?_, fun hn => ?_, fun hn => ?_, fun hn => ?_⟩
  · rw [hn] at h2
    simp only [setOptAttr] at h2
    exact ((Except.ok.injEq _ _).mp h2).symm
  · rw [hn] at h3
    simp only [setOptAttr] at h3
    exact ((Except.ok.injEq _ _).mp h3).symm
  · rw [hn] at h4
    simp only [setOptAttr] at h4
    exact ((Except.ok.injEq _ _).mp h4).symm
  · rw [hn] at h5
    simp only [setOptAttr] at h5
    exact ((Except.ok.injEq _ _).mp h5).symm

/-- C7: for each of types, names, charges, masses, `reassign_topology` adds a
container for the attribute to the packed universe exactly when at least one
template defines it; the non-fatal partial-coverage warning is emitted exactly
when some but not all templates define it (one entry per partially-covered
attribute, in attribute order); and a block whose template lacks an attribute
leaves that attribute's container untouched, so its atoms keep the default
values. -/
theorem c7_attr_provisioning (S : List Template) (u : PUniverse)
    (hn : u.types = none ∧ u.names = none ∧ u.charges = none ∧ u.masses = none) :
    (((addAttrDefaults S u).1).types.isSome = true
        ↔ S.any (fun p => p.types.isSome) = true) ∧
    (((addAttrDefaults S u).1).names.isSome = true
        ↔ S.any (fun p => p.names.isSome) = true) ∧
    (((addAttrDefaults S u).1).charges.isSome = true
        ↔ S.any (fun p => p.charges.isSome) = true) ∧
    (((addAttrDefaults S u).1).masses.isSome = true
        ↔ S.any (fun p => p.masses.isSome) = true) ∧
    ((addAttrDefaults S u).2 =
      (if S.any (fun p => p.types.isSome) && !(S.all (fun p => p.types.isSome))
        then [partialMsg] else [])
      ++ (if S.any (fun p => p.names.isSome) && !(S.all (fun p => p.names.isSome))
        then [partialMsg] else [])
      ++ (if S.any (fun p => p.charges.isSome)
            && !(S.all (fun p => p.charges.isSome))
        then [partialMsg] else [])
      ++ (if S.any (fun p => p.masses.isSome) && !(S.all (fun p => p.masses.isSome))
        then [partialMsg] else [])) ∧
    (∀ index (v : PUniverse) (acc : Acc) ri ti (tp : Template)
        (r : Nat × PUniverse × Acc),
      resolveTemplate S v index = Except.ok (ri, ti, tp) →
      stepBlock S index v acc = Except.ok r →
      (tp.types = none → r.2.1.types = v.types) ∧
      (tp.names = none → r.2.1.names = v.names) ∧
      (tp.charges = none → r.2.1.charges = v.charges) ∧
      (tp.masses = none → r.2.1.masses = v.masses)) := by
  obtain ⟨h1, h2, h3, h4⟩ := addAttrDefaults_attrs S u
  refine ⟨?_, ?_, ?_, ?_, addAttrDefaults_warns S u, ?_⟩
  · rw [h1]
    split_ifs with h <;> simp [h, hn.1]
  · rw [h2]
    split_ifs with h <;> simp [h, hn.2.1]
  · rw [h3]
    split_ifs with h <;> simp [h, hn.2.2.1]
  · rw [h4]
    split_ifs with h <;> simp [h, hn.2.2.2]
  · intro index v acc ri ti tp r hres hstep
    exact stepBlock_preserves_missing S index v acc ri ti tp r hres hstep

/-- C7 witness: two templates of which only the first defines charges — the
charges container is added, exactly one warning is emitted, and the block of
the charge-less template leaves the charges container untouched. -/
theorem c7_attr_provisioning_witness :
    (uOne.types = none ∧ uOne.names = none ∧ uOne.charges = none ∧
      uOne.masses = none) ∧
    ((addAttrDefaults [tplCharged, tplSOL] uOne).1.charges.isSome = true
        ↔ [tplCharged, tplSOL].any (fun p => p.charges.isSome) = true) ∧
    ((addAttrDefaults [tplCharged, tplSOL] uOne).1.charges
        = some [(0 : Int)]) ∧
    ((addAttrDefaults [tplCharged, tplSOL] uOne).1.masses = none) ∧
    ((addAttrDefaults [tplCharged, tplSOL] uOne).2 = [partialMsg]) ∧
    (rC7.2.1.charges = vC7.charges) := by
  have h := c7_attr_provisioning [tplCharged, tplSOL] uOne
    (by exact ⟨rfl, rfl, rfl, rfl⟩)
  refine ⟨⟨rfl, rfl, rfl, rfl⟩, h.2.2.1, by decide, by decide, ?_, ?_⟩
  · rw [h.2.2.2.2.1]
    decide
  · exact (h.2.2.2.2.2 0 vC7 Acc.empty 0 1 tplSOL rC7 (by decide)
      (by decide)).2.2.1 (by decide)

theorem resolveTemplate_inv (S : List Template) (u : PUniverse)
    (index ri ti : Nat) (tp : Template)
    (h : resolveTemplate S u index = Except.ok (ri, ti, tp)) :
    tp = S.getD ti default ∧ ti < S.length := by
  unfold resolveTemplate at h
  simp only [] at h
  split at h
  · exact absurd h (by simp)
  · split at h
    · exact absurd h (by simp)
    · rename_i t hparse j hidx
      cases h
      exact ⟨rfl, pyIndex_ok_lt hidx⟩

theorem stepBlock_ok_shape (S : List Template) (index : Nat) (u : PUniverse)
    (acc : Acc) (r : Nat × PUniverse × Acc)
    (h : stepBlock S index u acc = Except.ok r) :
    ∃ ti, ti < S.length ∧
      r.1 = index + (S.getD ti default).atomRes.length ∧
      r.2.1.resindices = u.resindices := by
  cases hres : resolveTemplate S u index with
  | error e =>
    unfold stepBlock at h
    simp [hres] at h
  | ok x =>
    obtain ⟨ri, ti, tp⟩ := x
    obtain ⟨htp, hti⟩ := resolveTemplate_inv S u index ri ti tp hres
    subst htp
    unfold stepBlock at h
    simp only [hres] at h
    repeat' split at h
    all_goals cases h
    exact ⟨ti, hti, rfl, rfl⟩

/-- C9: termination of the block walk.  First half: when every template has
at least one atom, the loop always terminates (returns a value or an error)
within `natoms` iterations of fuel.  Second half: when the template resolved
at the cursor is the zero-atom template, the successful step leaves the
cursor unchanged, and the loop diverges — it returns `none` at every fuel. -/
theorem c9_termination (S : List Template) :
    ((∀ tp ∈ S, tp.atomRes ≠ []) →
      ∀ fuel index (u : PUniverse) (acc : Acc), u.natoms - index ≤ fuel →
        loopFuel S fuel index u acc ≠ none) ∧
    (∀ index (u : PUniverse) (acc : Acc) ri ti,
      index < u.natoms →
      resolveTemplate S u index = Except.ok (ri, ti, emptyTemplate) →
      (∃ r, stepBlock S index u acc = Except.ok r ∧ r.1 = index) ∧
      (∀ fuel, loopFuel S fuel index u acc = none)) := by
  constructor
  · intro hS fuel
    induction fuel with
    | zero =>
      intro index u acc hle
      have hg : ¬ index < u.resindices.length := by
        unfold PUniverse.natoms at hle
        omega
      simp [loopFuel, hg]
    | succ f ihf =>
      intro index u acc hle
      by_cases hg : index < u.resindices.length
      · simp only [loopFuel, if_pos hg]
        cases hs : stepBlock S index u acc with
        | error e => simp
        | ok r =>
          obtain ⟨ti, hti, hr1, hridx⟩ := stepBlock_ok_shape S index u acc r hs
          have hk : 0 < (S.getD ti default).atomRes.length :=
            List.length_pos.mpr (hS (S.getD ti default) (tpl_mem S ti hti))
          apply ihf r.1 r.2.1 r.2.2
          unfold PUniverse.natoms at hle ⊢
          rw [hridx, hr1]
          omega
      · simp [loopFuel, hg]
  · intro index u acc ri ti hlt hres
    have hg : index < u.resindices.length := hlt
    have hw : setSliceList u.resnames ri ri ([] : List String) = Except.ok u.resnames :=
      setSliceList_nil u.resnames ri ri (by unfold sliceLen; omega)
    have hstep : ∀ acc2 : Acc, ∃ acc3,
        stepBlock S index u acc2 = Except.ok (index, u, acc3) := by
      intro acc2
      unfold stepBlock
      simp only [hres]
      simp only [emptyTemplate, List.length_nil, Nat.add_zero, hw, setOptAttr,
        Option.getD_none, List.map_nil, List.append_nil, offset2, offset3, offset4]
      exact ⟨_, rfl⟩
    constructor
    · obtain ⟨acc3, hs⟩ := hstep acc
      exact ⟨(index, u, acc3), hs, rfl⟩
    · intro fuel
      induction fuel generalizing acc with
      | zero => simp [loopFuel, hg]
      | succ f ihf =>
        obtain ⟨acc3, hs⟩ := hstep acc
        simp only [loopFuel, if_pos hg, hs]
        exact ihf acc3

/-- C9 witness: the walk over a one-atom universe with a non-empty template
terminates; with the zero-atom template at the cursor it returns `none` for a
concrete fuel (and every other). -/
theorem c9_termination_witness :
    ((∀ tp ∈ [tplSOL], tp.atomRes ≠ []) ∧ uOne.natoms - 0 ≤ 2 ∧
      loopFuel [tplSOL] 2 0 uOne Acc.empty ≠ none) ∧
    (0 < uOne.natoms ∧
      resolveTemplate [emptyTemplate] uOne 0 = Except.ok (0, 0, emptyTemplate) ∧
      loopFuel [emptyTemplate] 7 0 uOne Acc.empty = none) := by
  refine ⟨⟨by decide, by decide, ?_⟩, by decide, by decide, ?_⟩
  · exact (c9_termination [tplSOL]).1 (by decide) 2 0 uOne Acc.empty (by decide)
  · exact ((c9_termination [emptyTemplate]).2 0 uOne Acc.empty 0 0
      (by decide) (by decide)).2 7

theorem loopFuel_parse_error (S : List Template) (u : PUniverse) (acc : Acc)
    (index f : Nat) (hg : index < u.natoms) (e : PyErr)
    (he : pyParseInt ((u.atomResname index).drop 1) = Except.error e) :
    loopFuel S (f + 1) index u acc = some (Except.error e) := by
  have hres : resolveTemplate S u index = Except.error e := by
    unfold PUniverse.atomResname at he
    unfold resolveTemplate
    simp only [he]
  have hstep : stepBlock S index u acc = Except.error e := by
    unfold stepBlock
    simp [hres]
  have hg2 : index < u.resindices.length := hg
  simp only [loopFuel, if_pos hg2, hstep]

theorem loopFuel_index_error (S : List Template) (u : PUniverse) (acc : Acc)
    (index f : Nat) (hg : index < u.natoms) (t : Int) (e : PyErr)
    (ht : pyParseInt ((u.atomResname index).drop 1) = Except.ok t)
    (he : pyIndex S.length t = Except.error e) :
    loopFuel S (f + 1) index u acc = some (Except.error e) := by
  have hres : resolveTemplate S u index = Except.error e := by
    unfold PUniverse.atomResname at ht
    unfold resolveTemplate
    simp only [ht, he]
  have hstep : stepBlock S index u acc = Except.error e := by
    unfold stepBlock
    simp [hres]
  have hg2 : index < u.resindices.length := hg
  simp only [loopFuel, if_pos hg2, hstep]

/-- C10: when the cursor atom's residue name, stripped of its first
character, does not parse as an integer, the block walk stops with that
underlying `ValueError`; when it parses to an index outside the descriptor
list (Python range, negatives counting from the end), the walk stops with the
underlying `IndexError`; in both cases `reassign_topology` propagates the
error instead of returning a structure (the embedded error type has no
`ReassemblyError` at all — the source defines none). -/
theorem c10_malformed_label (S : List Template) (u : PUniverse) (acc : Acc)
    (index f : Nat) (hlt : index < u.natoms) :
    (∀ e, pyParseInt ((u.atomResname index).drop 1) = Except.error e →
      loopFuel S (f + 1) index u acc = some (Except.error e) ∧
      ∃ m, e = PyErr.valueError m) ∧
    (∀ t e, pyParseInt ((u.atomResname index).drop 1) = Except.ok t →
      pyIndex S.length t = Except.error e →
      loopFuel S (f + 1) index u acc = some (Except.error e) ∧
      ∃ m, e = PyErr.indexError m) ∧
    (index = 0 → ∀ e, pyParseInt ((u.atomResname 0).drop 1) = Except.error e →
      reassign_topology S u (f + 1) = some (Except.error e)) := by
  refine ⟨fun e he => ⟨loopFuel_parse_error S u acc index f hlt e he,
      pyParseInt_error_shape he⟩,
    fun t e ht he => ⟨loopFuel_index_error S u acc index f hlt t e ht he,
      pyIndex_error_shape he⟩,
    fun h0 e he => ?_⟩
  subst h0
  obtain ⟨hresn, hresi, -⟩ := addAttrDefaults_resnames S u
  have hlt2 : 0 < ((addAttrDefaults S u).1).natoms := by
    show 0 < ((addAttrDefaults S u).1).resindices.length
    rw [hresi]
    exact hlt
  have he2 : pyParseInt ((((addAttrDefaults S u).1).atomResname 0).drop 1)
      = Except.error e := by
    unfold PUniverse.atomResname at he ⊢
    rw [hresn, hresi]
    exact he
  have hloop := loopFuel_parse_error S ((addAttrDefaults S u).1) Acc.empty 0 f
    hlt2 e he2
  unfold reassign_topology
  simp only [hloop]

/-- C10 witness: a first atom named "XYZ" (tail "YZ" unparseable) stops the
walk with the `ValueError`, propagated by `reassign_topology`; a first atom
named "R5" against a one-descriptor list stops it with the `IndexError`. -/
theorem c10_malformed_label_witness :
    (0 < uBadParse.natoms ∧
      pyParseInt ((uBadParse.atomResname 0).drop 1)
        = Except.error (PyErr.valueError "YZ") ∧
      loopFuel [tplSOL] 3 0 uBadParse Acc.empty
        = some (Except.error (PyErr.valueError "YZ")) ∧
      reassign_topology [tplSOL] uBadParse 3
        = some (Except.error (PyErr.valueError "YZ"))) ∧
    (0 < uBadIndex.natoms ∧
      pyParseInt ((uBadIndex.atomResname 0).drop 1) = Except.ok 5 ∧
      pyIndex 1 5 = Except.error (PyErr.indexError "list index out of range") ∧
      loopFuel [tplSOL] 3 0 uBadIndex Acc.empty
        = some (Except.error (PyErr.indexError "list index out of range"))) := by
  have h1 := c10_malformed_label [tplSOL] uBadParse Acc.empty 0 2 (by decide)
  have h2 := c10_malformed_label [tplSOL] uBadIndex Acc.empty 0 2 (by decide)
  refine ⟨⟨by decide, by decide, ?_, ?_⟩, by decide, by decide, by decide, ?_⟩
  · exact (h1.1 (PyErr.valueError "YZ") (by decide)).1
  · exact h1.2.2 rfl (PyErr.valueError "YZ") (by decide)
  · exact (h2.2.1 5 (PyErr.indexError "list index out of range")
      (by decide) (by decide)).1

end MDAPackmol
